import Mathlib

/-!
Verification of the Tiny TRS-80 Model III display runtime
(`src/lib/tinymodel3.py`, class `Runtime`).

The display state is embedded shallowly: the character buffer is a list of
cell codes, the cursor an index, and the renderer notifications are recorded
in an event log (`redraws` holds the positions of per-cell glyph redraw
blits issued by `_update_char`, `scrolls` counts the screen blits issued by
`_scroll`).  Machine integers are modelled by `Nat`/`Int`; the Python
`assert` in `_update_char` that can be reached with out-of-contract inputs
(through `poke`) is modelled by an `Option` result on `poke`.
-/

namespace TinyModel3

/-- The observable state of `Runtime`: mode geometry (`line_width`,
`line_count`), the character buffer `chars`, the cursor, and the renderer
notification log (`redraws`: positions of per-cell redraws, most recent
first; `scrolls`: number of scroll blits). -/
structure RTState where
  line_width : Nat
  line_count : Nat
  chars : List Nat
  cursor : Nat
  redraws : List Nat
  scrolls : Nat
deriving DecidableEq

/-- `self.chars_len = self.line_width*self.line_count`. -/
def charsLen (st : RTState) : Nat := st.line_width * st.line_count

/-- The buffer/cursor initialisation in `Runtime.__init__`:
`chars = [32]*chars_len`, `cursor = 0`, for a geometry of `w` columns and
`h` rows. -/
def init (w h : Nat) : RTState :=
  { line_width := w, line_count := h, chars := List.replicate (w * h) 32,
    cursor := 0, redraws := [], scrolls := 0 }

/-- `Runtime.__init__(mode)`: mode 64 is 64x16, mode 32 is 32x16, any other
mode raises `ValueError`. -/
def mkRuntime (mode : Nat) : Option RTState :=
  if mode = 64 then some (init 64 16)
  else if mode = 32 then some (init 32 16)
  else none

/-- `Runtime._update_char(pos, char)` (after its assertion
`0 <= char < 256`): a no-op when the cell already holds `char`; otherwise
store `char` and issue exactly one per-cell redraw blit, recorded by
prepending `pos` to the `redraws` log. -/
def update_char (st : RTState) (pos char : Nat) : RTState :=
  if st.chars.getD pos 0 = char then st
  else { st with chars := st.chars.set pos char, redraws := pos :: st.redraws }

/-- `Runtime._scroll()`: `chars[i] = chars[i+line_width]` for
`i < chars_len - line_width` (the ascending in-place loop reads each source
index before it is overwritten, so it equals this pointwise form), then
`chars[i] = 32` for the final row; the screen blit is recorded by
incrementing `scrolls`. -/
def scroll (st : RTState) : RTState :=
  { st with
    chars := (List.range (charsLen st)).map (fun i =>
      if i < charsLen st - st.line_width then st.chars.getD (i + st.line_width) 0
      else 32),
    scrolls := st.scrolls + 1 }

/-- `Runtime._cls()` / `Runtime.cls()`: every cell becomes 32 and the
cursor returns to 0. -/
def cls (st : RTState) : RTState :=
  { st with chars := List.replicate (charsLen st) 32, cursor := 0 }

/-- The blanking loops in `Runtime.print`:
`for i in range(n): self._update_char(start+i, 32)`. -/
def blankFrom (st : RTState) (start n : Nat) : RTState :=
  (List.range n).foldl (fun s i => update_char s (start + i) 32) st

/-- One iteration of the control-code interpreter loop in `Runtime.print`,
for a single character code `c`. -/
def printChar (st : RTState) (c : Nat) : RTState :=
  if c = 8 then
    let cur := (st.cursor + charsLen st - 1) % charsLen st
    update_char { st with cursor := cur } cur 32
  else if c = 10 ∨ c = 13 then
    let row := st.cursor / st.line_width
    let col := st.cursor % st.line_width
    let st1 := blankFrom st st.cursor (st.line_width - col)
    if row < st.line_count - 1 then { st1 with cursor := (row + 1) * st.line_width }
    else { scroll st1 with cursor := row * st.line_width }
  else if c = 24 then
    let row := st.cursor / st.line_width
    let col := (st.cursor % st.line_width + st.line_width - 1) % st.line_width
    { st with cursor := row * st.line_width + col }
  else if c = 25 then
    let row := st.cursor / st.line_width
    let col := (st.cursor % st.line_width + 1) % st.line_width
    { st with cursor := row * st.line_width + col }
  else if c = 26 then
    let row := (st.cursor / st.line_width + 1) % st.line_count
    let col := st.cursor % st.line_width
    { st with cursor := row * st.line_width + col }
  else if c = 27 then
    let row := (st.cursor / st.line_width + st.line_count - 1) % st.line_count
    let col := st.cursor % st.line_width
    { st with cursor := row * st.line_width + col }
  else if c = 28 then
    { st with cursor := 0 }
  else if c = 29 then
    { st with cursor := (st.cursor / st.line_width) * st.line_width }
  else if c = 30 then
    blankFrom st st.cursor (st.line_width - st.cursor % st.line_width)
  else if c = 31 then
    blankFrom st st.cursor (charsLen st - st.cursor)
  else if 191 ≤ c ∧ c < 256 then
    let row := st.cursor / st.line_width
    let col := st.cursor % st.line_width
    let tab_col := c - 191
    let col1 := if col < tab_col then tab_col else col
    { st with cursor := row * st.line_width + col1 }
  else
    let st1 := update_char st st.cursor c
    let st2 := { st1 with cursor := st1.cursor + 1 }
    if charsLen st2 ≤ st2.cursor then
      { scroll st2 with cursor := (st2.line_count - 1) * st2.line_width }
    else st2

/-- `Runtime.print(text)`: interpret the character codes of `text` in
order. -/
def print (st : RTState) (text : List Nat) : RTState :=
  text.foldl printChar st

/-- `Runtime.print_at(pos, text)` (after its assertion
`0 <= pos < line_width*line_count`): set the cursor to `pos`, then print. -/
def print_at (st : RTState) (pos : Nat) (text : List Nat) : RTState :=
  print { st with cursor := pos } text

/-- `Runtime.tab(n)` (after its assertion `0 <= n < 64`): the control code
`191+n` to embed in a print stream. -/
def tab (n : Nat) : Nat := 191 + n

/-- `Runtime.set(x, y)` (after its coordinate assertions). -/
def set (st : RTState) (x y : Nat) : RTState :=
  let row := y / 3
  let col := x / 2
  let pos := row * st.line_width + col
  let b := st.chars.getD pos 0
  let b1 := if b &&& 0x80 = 0 then 0x80 else b
  update_char st pos (b1 ||| 1 <<< (2 * (y % 3) + x % 2))

/-- `Runtime.reset(x, y)` (after its coordinate assertions). -/
def reset (st : RTState) (x y : Nat) : RTState :=
  let row := y / 3
  let col := x / 2
  let pos := row * st.line_width + col
  let b := st.chars.getD pos 0
  let b1 := if b &&& 0x80 = 0 then 0x80 else b
  update_char st pos (b1 &&& (0xFFFF ^^^ 1 <<< (2 * (y % 3) + x % 2)))

/-- `Runtime.point(x, y)` (after its coordinate assertions), translated as
a state transformer: its body performs no assignment, so the method returns
its boolean together with the unchanged state. -/
def point (st : RTState) (x y : Nat) : Bool × RTState :=
  let row := y / 3
  let col := x / 2
  let pos := row * st.line_width + col
  let b := st.chars.getD pos 0
  if b &&& 0x80 = 0 then (false, st)
  else (0 < b &&& 1 <<< (2 * (y % 3) + x % 2), st)

/-- `Runtime.peek(addr)`, translated as a state transformer: the cell code
at buffer index `addr - 15360` when `addr` lies in the video window,
otherwise 0, with the unchanged state. -/
def peek (st : RTState) (addr : Int) : Int × RTState :=
  if 15360 ≤ addr ∧ addr < 15360 + (charsLen st : Int) then
    ((st.chars.getD (addr - 15360).toNat 0 : Int), st)
  else (0, st)

/-- `Runtime.poke(addr, val)`: inside the video window it calls
`_update_char(addr-15360, val)`, whose assertion `0 <= val < 256` is
modelled by the `none` result; outside the window it does nothing. -/
def poke (st : RTState) (addr val : Int) : Option RTState :=
  if 15360 ≤ addr ∧ addr < 15360 + (charsLen st : Int) then
    if 0 ≤ val ∧ val < 256 then some (update_char st (addr - 15360).toNat val.toNat)
    else none
  else some st

/-- The codes given a dedicated branch by the interpreter loop of
`Runtime.print`; every other code is written as a glyph. -/
def isControl (c : Nat) : Bool :=
  c == 8 || c == 10 || c == 13 || c == 24 || c == 25 || c == 26 || c == 27 ||
  c == 28 || c == 29 || c == 30 || c == 31 || (191 ≤ c && c < 256)

/-! Basic facts about the update primitive. -/

@[simp] lemma update_char_line_width (st : RTState) (pos c : Nat) :
    (update_char st pos c).line_width = st.line_width := by
  unfold update_char; split <;> rfl

@[simp] lemma update_char_line_count (st : RTState) (pos c : Nat) :
    (update_char st pos c).line_count = st.line_count := by
  unfold update_char; split <;> rfl

@[simp] lemma update_char_cursor (st : RTState) (pos c : Nat) :
    (update_char st pos c).cursor = st.cursor := by
  unfold update_char; split <;> rfl

@[simp] lemma update_char_scrolls (st : RTState) (pos c : Nat) :
    (update_char st pos c).scrolls = st.scrolls := by
  unfold update_char; split <;> rfl

@[simp] lemma update_char_chars_length (st : RTState) (pos c : Nat) :
    (update_char st pos c).chars.length = st.chars.length := by
  unfold update_char; split
  · rfl
  · exact List.length_set st.chars pos c

@[simp] lemma charsLen_update_char (st : RTState) (pos c : Nat) :
    charsLen (update_char st pos c) = charsLen st := by
  unfold charsLen; rw [update_char_line_width, update_char_line_count]

lemma update_char_of_eq (st : RTState) (pos c : Nat)
    (h : st.chars.getD pos 0 = c) : update_char st pos c = st := by
  unfold update_char; rw [if_pos h]

lemma update_char_chars_of_ne (st : RTState) (pos c : Nat)
    (h : st.chars.getD pos 0 ≠ c) :
    (update_char st pos c).chars = st.chars.set pos c := by
  unfold update_char; rw [if_neg h]

lemma update_char_redraws_of_ne (st : RTState) (pos c : Nat)
    (h : st.chars.getD pos 0 ≠ c) :
    (update_char st pos c).redraws = pos :: st.redraws := by
  unfold update_char; rw [if_neg h]

lemma getD_set_self {l : List Nat} {i : Nat} (h : i < l.length) (a : Nat) :
    (l.set i a).getD i 0 = a := by
  rw [List.getD_eq_getElem?_getD, List.getElem?_set_self h]; rfl

lemma getD_set_ne {l : List Nat} {i j : Nat} (h : i ≠ j) (a : Nat) :
    (l.set i a).getD j 0 = l.getD j 0 := by
  rw [List.getD_eq_getElem?_getD, List.getElem?_set_ne h,
    ← List.getD_eq_getElem?_getD]

lemma update_char_getD_self (st : RTState) (pos c : Nat)
    (h : pos < st.chars.length) :
    (update_char st pos c).chars.getD pos 0 = c := by
  unfold update_char; split
  · assumption
  · exact getD_set_self h c

lemma update_char_getD_ne (st : RTState) (pos c j : Nat) (h : j ≠ pos) :
    (update_char st pos c).chars.getD j 0 = st.chars.getD j 0 := by
  unfold update_char; split
  · rfl
  · exact getD_set_ne (Ne.symm h) c

/-- C10: point and peek are pure queries: for every valid pixel coordinate
(x,y) and every integer address addr, calling point(x,y) or peek(addr)
leaves every cell of the character buffer and the cursor unchanged. -/
theorem C10_point_peek_pure (st : RTState) (x y : Nat) (addr : Int)
    (_hx : x < 2 * st.line_width) (_hy : y < 3 * st.line_count) :
    (point st x y).2.chars = st.chars ∧ (point st x y).2.cursor = st.cursor ∧
    (peek st addr).2.chars = st.chars ∧ (peek st addr).2.cursor = st.cursor := by
  have hp : (point st x y).2 = st := by
    unfold point; dsimp only; split <;> rfl
  have hk : (peek st addr).2 = st := by
    unfold peek; split <;> rfl
  rw [hp, hk]
  exact ⟨rfl, rfl, rfl, rfl⟩

theorem C10_witness :
    1 < 2 * (init 2 2).line_width ∧ 2 < 3 * (init 2 2).line_count ∧
    ((point (init 2 2) 1 2).2.chars = (init 2 2).chars ∧
     (point (init 2 2) 1 2).2.cursor = (init 2 2).cursor ∧
     (peek (init 2 2) 0).2.chars = (init 2 2).chars ∧
     (peek (init 2 2) 0).2.cursor = (init 2 2).cursor) :=
  ⟨by decide, by decide,
    C10_point_peek_pure (init 2 2) 1 2 0 (by decide) (by decide)⟩

/-- C8 counterexample: an in-window poke with value 256 hits the
`0 <= char < 256` assertion of `_update_char` and fails instead of
returning normally, refuting "for every integer value val, poke(addr, val)
returns normally". -/
theorem C8_cex_poke_fails : poke (init 64 16) 15360 256 = none := by
  decide

/-- C8 (amended): peek never fails; poke returns normally whenever the
value is in [0,255] (in which case an in-window write is applied as the raw
cell code) or the address is outside the window, in which case the call
returns with the state unchanged; an in-window poke with a value outside
[0,255] fails the `_update_char` assertion. -/
theorem C8_poke_error_handling (st : RTState) (addr val : Int) :
    (0 ≤ val ∧ val < 256 → (poke st addr val).isSome = true) ∧
    ((addr < 15360 ∨ 15360 + (charsLen st : Int) ≤ addr) →
      poke st addr val = some st) := by
  constructor
  · intro hv
    unfold poke
    by_cases hA : 15360 ≤ addr ∧ addr < 15360 + (charsLen st : Int)
    · rw [if_pos hA, if_pos hv]; rfl
    · rw [if_neg hA]; rfl
  · intro ha
    unfold poke
    rw [if_neg (by omega)]

theorem C8_witness :
    ((0 ≤ (7 : Int) ∧ (7 : Int) < 256 → (poke (init 2 2) 15360 7).isSome = true) ∧
     (((15360 : Int) < 15360 ∨ 15360 + (charsLen (init 2 2) : Int) ≤ 15360) →
       poke (init 2 2) 15360 7 = some (init 2 2))) :=
  C8_poke_error_handling (init 2 2) 15360 7

/-- C7: for every k in [0, chars_len), peek(15360+k) returns the cell code
stored at buffer index k; peek outside the window returns 0; for v in
[0,255], poke(15360+k, v) followed by peek(15360+k) returns v; poke at any
address outside the window leaves the state (hence the whole buffer)
unchanged. -/
theorem C7_peek_poke_window (st : RTState) (k : Nat) (v : Int)
    (hk : k < charsLen st) (hlen : st.chars.length = charsLen st)
    (hv0 : 0 ≤ v) (hv1 : v < 256) :
    (peek st (15360 + (k : Int))).1 = (st.chars.getD k 0 : Int) ∧
    (∀ a : Int, (a < 15360 ∨ 15360 + (charsLen st : Int) ≤ a) →
      (peek st a).1 = 0) ∧
    (poke st (15360 + (k : Int)) v).map (fun s => (peek s (15360 + (k : Int))).1)
      = some v ∧
    (∀ a : Int, (a < 15360 ∨ 15360 + (charsLen st : Int) ≤ a) →
      ∀ u : Int, poke st a u = some st) := by
  have hidx : ((15360 : Int) + (k : Int) - 15360).toNat = k := by
    omega
  refine ⟨?_, ?_, ?_, ?_⟩
  · unfold peek
    rw [if_pos ⟨by omega, by omega⟩, hidx]
  · intro a ha
    unfold peek
    rw [if_neg (by omega)]
  · unfold poke
    rw [if_pos ⟨by omega, by omega⟩, if_pos ⟨hv0, hv1⟩, hidx]
    unfold peek
    rw [Option.map_some']
    rw [if_pos ⟨by omega, by simp only [charsLen_update_char]; omega⟩]
    rw [hidx, update_char_getD_self st k v.toNat (by omega)]
    rw [Int.toNat_of_nonneg hv0]
  · intro a ha u
    unfold poke
    rw [if_neg (by omega)]

theorem C7_witness :
    1 < charsLen (init 2 2) ∧
    (init 2 2).chars.length = charsLen (init 2 2) ∧
    0 ≤ (200 : Int) ∧ (200 : Int) < 256 ∧
    ((peek (init 2 2) (15360 + (1 : Nat))).1 = ((init 2 2).chars.getD 1 0 : Int) ∧
     (∀ a : Int, (a < 15360 ∨ 15360 + (charsLen (init 2 2) : Int) ≤ a) →
       (peek (init 2 2) a).1 = 0) ∧
     (poke (init 2 2) (15360 + (1 : Nat)) 200).map
        (fun s => (peek s (15360 + (1 : Nat))).1) = some 200 ∧
     (∀ a : Int, (a < 15360 ∨ 15360 + (charsLen (init 2 2) : Int) ≤ a) →
       ∀ u : Int, poke (init 2 2) a u = some (init 2 2))) :=
  ⟨by decide, by decide, by decide, by decide,
    C7_peek_poke_window (init 2 2) 1 200 (by decide) (by decide)
      (by decide) (by decide)⟩

/-- C9 counterexample: writing the blank code 32 twice at position 0 of a
freshly constructed runtime (whose cells already hold 32) produces zero
redraw notifications, not exactly one. -/
theorem C9_cex_zero_redraws :
    (update_char (update_char (init 64 16) 0 32) 0 32).redraws.length ≠ 1 := by
  decide

/-- C9 (amended): the per-cell update primitive is a no-op (state
unchanged, no redraw) when the new code equals the cell's current code, and
otherwise stores the new code and issues exactly one redraw notification
for that cell; hence two writes of the same code to the same position
produce exactly one redraw in total when the code differs from the cell's
prior content, and none when it already equals it. -/
theorem C9_update_primitive (st : RTState) (pos c : Nat)
    (hpos : pos < st.chars.length) :
    (st.chars.getD pos 0 = c → update_char st pos c = st) ∧
    (st.chars.getD pos 0 ≠ c →
      (update_char st pos c).chars = st.chars.set pos c ∧
      (update_char st pos c).redraws = pos :: st.redraws) ∧
    ((update_char (update_char st pos c) pos c).redraws.length =
      if st.chars.getD pos 0 = c then st.redraws.length
      else st.redraws.length + 1) := by
  refine ⟨update_char_of_eq st pos c, ?_, ?_⟩
  · intro h
    exact ⟨update_char_chars_of_ne st pos c h, update_char_redraws_of_ne st pos c h⟩
  · by_cases h : st.chars.getD pos 0 = c
    · rw [if_pos h, update_char_of_eq st pos c h, update_char_of_eq st pos c h]
    · rw [if_neg h,
        update_char_of_eq (update_char st pos c) pos c
          (update_char_getD_self st pos c hpos),
        update_char_redraws_of_ne st pos c h]
      rfl

theorem C9_witness :
    0 < (init 2 2).chars.length ∧
    (((init 2 2).chars.getD 0 0 = 65 → update_char (init 2 2) 0 65 = init 2 2) ∧
     ((init 2 2).chars.getD 0 0 ≠ 65 →
       (update_char (init 2 2) 0 65).chars = (init 2 2).chars.set 0 65 ∧
       (update_char (init 2 2) 0 65).redraws = 0 :: (init 2 2).redraws) ∧
     ((update_char (update_char (init 2 2) 0 65) 0 65).redraws.length =
       if (init 2 2).chars.getD 0 0 = 65 then (init 2 2).redraws.length
       else (init 2 2).redraws.length + 1)) :=
  ⟨by decide, C9_update_primitive (init 2 2) 0 65 (by decide)⟩

/-! Bit-level facts for the semigraphics plane. -/

lemma and_two_pow_eq_zero_iff (b k : Nat) :
    b &&& 2 ^ k = 0 ↔ b.testBit k = false := by
  rw [Nat.and_two_pow]
  cases h : b.testBit k <;>
    simp [Nat.pos_iff_ne_zero, (Nat.two_pow_pos k).ne']

lemma decide_pos_and_two_pow (b m : Nat) :
    decide (0 < b &&& 2 ^ m) = b.testBit m := by
  rw [Nat.and_two_pow]
  cases h : b.testBit m <;>
    simp [(Nat.two_pow_pos m).ne', Nat.pos_iff_ne_zero]

lemma testBit_65535 {i : Nat} (h : i < 16) : (65535 : Nat).testBit i = true := by
  have h16 : (65535 : Nat) = 2 ^ 16 - 1 := by norm_num
  rw [h16, Nat.testBit_two_pow_sub_one]
  simp [h]

/-- The cell forced to graphics baseline when its top bit is clear always
has the top bit set afterwards. -/
lemma graphics_base_testBit7 (b : Nat) :
    (if b &&& 128 = 0 then 128 else b : Nat).testBit 7 = true := by
  by_cases hb : b &&& 128 = 0
  · rw [if_pos hb]; decide
  · rw [if_neg hb]
    cases hh : b.testBit 7
    · exact absurd (by
        have := (and_two_pow_eq_zero_iff b 7).mpr hh
        norm_num at this
        exact this) hb
    · rfl

lemma graphics_base_testBit_low (b : Nat) {i : Nat} (hi : i ≠ 7) :
    (if b &&& 128 = 0 then 128 else b : Nat).testBit i =
      (if b &&& 128 = 0 then false else b.testBit i) := by
  by_cases hb : b &&& 128 = 0
  · rw [if_pos hb, if_pos hb]
    have : (128 : Nat) = 2 ^ 7 := by norm_num
    rw [this, Nat.testBit_two_pow_of_ne (Ne.symm hi)]
  · rw [if_neg hb, if_neg hb]

lemma pixel_bit_le (x y : Nat) : 2 * (y % 3) + x % 2 ≤ 5 := by omega

lemma pixel_pos_lt (st : RTState) (x y : Nat)
    (hx : x < 2 * st.line_width) (hy : y < 3 * st.line_count) :
    (y / 3) * st.line_width + x / 2 < charsLen st := by
  unfold charsLen
  have h1 : y / 3 + 1 ≤ st.line_count := by omega
  have h2 : x / 2 < st.line_width := by omega
  calc (y / 3) * st.line_width + x / 2
      < (y / 3) * st.line_width + st.line_width := by omega
    _ = (y / 3 + 1) * st.line_width := by ring
    _ ≤ st.line_count * st.line_width := Nat.mul_le_mul_right _ h1
    _ = st.line_width * st.line_count := Nat.mul_comm _ _

@[simp] lemma set_line_width (st : RTState) (x y : Nat) :
    (set st x y).line_width = st.line_width := by
  unfold set; dsimp only; rw [update_char_line_width]

@[simp] lemma reset_line_width (st : RTState) (x y : Nat) :
    (reset st x y).line_width = st.line_width := by
  unfold reset; dsimp only; rw [update_char_line_width]

/-- The boolean computed by `Runtime.point`, written through `testBit`:
the cell is in graphics mode (bit 7 set) and the addressed sub-pixel bit is
set. -/
lemma point_fst (st : RTState) (x y : Nat) :
    (point st x y).1 =
      ((st.chars.getD ((y / 3) * st.line_width + x / 2) 0).testBit 7 &&
       (st.chars.getD ((y / 3) * st.line_width + x / 2) 0).testBit
         (2 * (y % 3) + x % 2)) := by
  unfold point
  dsimp only
  rw [Nat.one_shiftLeft]
  generalize st.chars.getD ((y / 3) * st.line_width + x / 2) 0 = b
  by_cases h : b &&& 128 = 0
  · rw [if_pos h]
    have h7 : b.testBit 7 = false := by
      apply (and_two_pow_eq_zero_iff b 7).mp
      norm_num
      exact h
    rw [h7]
    simp
  · rw [if_neg h]
    have h7 : b.testBit 7 = true := by
      cases hh : b.testBit 7
      · exact absurd (by
          have h2 := (and_two_pow_eq_zero_iff b 7).mpr hh
          norm_num at h2
          exact h2) h
      · rfl
    rw [h7, Bool.true_and]
    exact decide_pos_and_two_pow b _

/-- The cell value stored by `Runtime.set`. -/
lemma set_getD_pos (st : RTState) (x y : Nat)
    (hpos : (y / 3) * st.line_width + x / 2 < st.chars.length) :
    (set st x y).chars.getD ((y / 3) * st.line_width + x / 2) 0 =
      (if st.chars.getD ((y / 3) * st.line_width + x / 2) 0 &&& 128 = 0 then 128
       else st.chars.getD ((y / 3) * st.line_width + x / 2) 0) |||
        2 ^ (2 * (y % 3) + x % 2) := by
  unfold set
  dsimp only
  rw [update_char_getD_self _ _ _ hpos, Nat.one_shiftLeft]

/-- The cell value stored by `Runtime.reset`. -/
lemma reset_getD_pos (st : RTState) (x y : Nat)
    (hpos : (y / 3) * st.line_width + x / 2 < st.chars.length) :
    (reset st x y).chars.getD ((y / 3) * st.line_width + x / 2) 0 =
      (if st.chars.getD ((y / 3) * st.line_width + x / 2) 0 &&& 128 = 0 then 128
       else st.chars.getD ((y / 3) * st.line_width + x / 2) 0) &&&
        (65535 ^^^ 2 ^ (2 * (y % 3) + x % 2)) := by
  unfold reset
  dsimp only
  rw [update_char_getD_self _ _ _ hpos, Nat.one_shiftLeft]

lemma set_getD_other (st : RTState) (x y j : Nat)
    (hj : j ≠ (y / 3) * st.line_width + x / 2) :
    (set st x y).chars.getD j 0 = st.chars.getD j 0 := by
  unfold set
  dsimp only
  exact update_char_getD_ne _ _ _ _ hj

lemma reset_getD_other (st : RTState) (x y j : Nat)
    (hj : j ≠ (y / 3) * st.line_width + x / 2) :
    (reset st x y).chars.getD j 0 = st.chars.getD j 0 := by
  unfold reset
  dsimp only
  exact update_char_getD_ne _ _ _ _ hj

/-- C3: set, reset and point all address cell index
(y div 3)*line_width + (x div 2) and bit 2*(y mod 3) + (x mod 2): point is
true iff that cell has its top bit set and that bit set, set leaves every
other cell unchanged and turns exactly that bit on, reset leaves every
other cell unchanged and turns exactly that bit off. -/
theorem C3_pixel_addressing (st : RTState) (x y : Nat)
    (hx : x < 2 * st.line_width) (hy : y < 3 * st.line_count)
    (hlen : st.chars.length = charsLen st) :
    ((point st x y).1 =
      ((st.chars.getD ((y / 3) * st.line_width + x / 2) 0).testBit 7 &&
       (st.chars.getD ((y / 3) * st.line_width + x / 2) 0).testBit
         (2 * (y % 3) + x % 2))) ∧
    (∀ j, j ≠ (y / 3) * st.line_width + x / 2 →
      (set st x y).chars.getD j 0 = st.chars.getD j 0 ∧
      (reset st x y).chars.getD j 0 = st.chars.getD j 0) ∧
    ((set st x y).chars.getD ((y / 3) * st.line_width + x / 2) 0).testBit
        (2 * (y % 3) + x % 2) = true ∧
    ((reset st x y).chars.getD ((y / 3) * st.line_width + x / 2) 0).testBit
        (2 * (y % 3) + x % 2) = false := by
  have hpos : (y / 3) * st.line_width + x / 2 < st.chars.length := by
    rw [hlen]; exact pixel_pos_lt st x y hx hy
  refine ⟨point_fst st x y, ?_, ?_, ?_⟩
  · intro j hj
    exact ⟨set_getD_other st x y j hj, reset_getD_other st x y j hj⟩
  · rw [set_getD_pos st x y hpos, Nat.testBit_or, Nat.testBit_two_pow_self,
      Bool.or_true]
  · rw [reset_getD_pos st x y hpos, Nat.testBit_and, Nat.testBit_xor,
      Nat.testBit_two_pow_self,
      testBit_65535 (by have := pixel_bit_le x y; omega)]
    simp

theorem C3_witness :
    1 < 2 * (init 2 2).line_width ∧ 4 < 3 * (init 2 2).line_count ∧
    (init 2 2).chars.length = charsLen (init 2 2) ∧
    (((point (init 2 2) 1 4).1 =
      (((init 2 2).chars.getD ((4 / 3) * (init 2 2).line_width + 1 / 2) 0).testBit 7 &&
       ((init 2 2).chars.getD ((4 / 3) * (init 2 2).line_width + 1 / 2) 0).testBit
         (2 * (4 % 3) + 1 % 2))) ∧
    (∀ j, j ≠ (4 / 3) * (init 2 2).line_width + 1 / 2 →
      (set (init 2 2) 1 4).chars.getD j 0 = (init 2 2).chars.getD j 0 ∧
      (reset (init 2 2) 1 4).chars.getD j 0 = (init 2 2).chars.getD j 0) ∧
    ((set (init 2 2) 1 4).chars.getD ((4 / 3) * (init 2 2).line_width + 1 / 2) 0).testBit
        (2 * (4 % 3) + 1 % 2) = true ∧
    ((reset (init 2 2) 1 4).chars.getD
        ((4 / 3) * (init 2 2).line_width + 1 / 2) 0).testBit
        (2 * (4 % 3) + 1 % 2) = false) :=
  ⟨by decide, by decide, by decide,
    C3_pixel_addressing (init 2 2) 1 4 (by decide) (by decide) (by decide)⟩

/-- The graphics-mode forcing performed by set/reset preserves the value of
`point` at any sub-pixel bit (both top-bit tests agree after forcing). -/
lemma point_after_graphics_write (b : Nat) {i : Nat} (h7 : i ≠ 7) :
    ((if b &&& 128 = 0 then 128 else b : Nat).testBit 7 &&
     (if b &&& 128 = 0 then 128 else b : Nat).testBit i) =
    (b.testBit 7 && b.testBit i) := by
  rw [graphics_base_testBit7, graphics_base_testBit_low b h7, Bool.true_and]
  by_cases hb : b &&& 128 = 0
  · rw [if_pos hb]
    have h0 : b.testBit 7 = false := by
      apply (and_two_pow_eq_zero_iff b 7).mp
      norm_num
      exact hb
    rw [h0]
    simp
  · rw [if_neg hb]
    have h1 : b.testBit 7 = true := by
      cases hh : b.testBit 7
      · exact absurd (by
          have h2 := (and_two_pow_eq_zero_iff b 7).mpr hh
          norm_num at h2
          exact h2) hb
      · rfl
    rw [h1]
    simp

/-- C4: for every valid pixel coordinate (x,y) and every buffer state,
set(x,y) then point(x,y) returns true, and reset(x,y) then point(x,y)
returns false. -/
theorem C4_set_reset_roundtrip (st : RTState) (x y : Nat)
    (hx : x < 2 * st.line_width) (hy : y < 3 * st.line_count)
    (hlen : st.chars.length = charsLen st) :
    (point (set st x y) x y).1 = true ∧
    (point (reset st x y) x y).1 = false := by
  have hpos : (y / 3) * st.line_width + x / 2 < st.chars.length := by
    rw [hlen]; exact pixel_pos_lt st x y hx hy
  have hb5 := pixel_bit_le x y
  have hne7 : 2 * (y % 3) + x % 2 ≠ 7 := by omega
  constructor
  · rw [point_fst, set_line_width, set_getD_pos st x y hpos]
    simp only [Nat.testBit_or, graphics_base_testBit7,
      Nat.testBit_two_pow_self, Bool.true_or, Bool.or_true, Bool.and_self]
  · rw [point_fst, reset_line_width, reset_getD_pos st x y hpos]
    simp only [Nat.testBit_and, Nat.testBit_xor, graphics_base_testBit7,
      Nat.testBit_two_pow_self, Nat.testBit_two_pow_of_ne hne7,
      testBit_65535 (show (7 : Nat) < 16 by norm_num),
      testBit_65535 (show 2 * (y % 3) + x % 2 < 16 by omega)]
    simp

theorem C4_witness :
    1 < 2 * (init 2 2).line_width ∧ 4 < 3 * (init 2 2).line_count ∧
    (init 2 2).chars.length = charsLen (init 2 2) ∧
    ((point (set (init 2 2) 1 4) 1 4).1 = true ∧
     (point (reset (init 2 2) 1 4) 1 4).1 = false) :=
  ⟨by decide, by decide, by decide,
    C4_set_reset_roundtrip (init 2 2) 1 4 (by decide) (by decide) (by decide)⟩

/-- C5: set(x,y) and reset(x,y) do not alter the other sub-pixels of their
cell: for every valid coordinate (x1,y1) mapping to the same cell but a
different bit, point(x1,y1) has the same value after the call as before. -/
theorem C5_subpixel_frame (st : RTState) (x y x1 y1 : Nat)
    (hx : x < 2 * st.line_width) (hy : y < 3 * st.line_count)
    (_hx1 : x1 < 2 * st.line_width) (_hy1 : y1 < 3 * st.line_count)
    (hlen : st.chars.length = charsLen st)
    (hpos : (y1 / 3) * st.line_width + x1 / 2 = (y / 3) * st.line_width + x / 2)
    (hbit : 2 * (y1 % 3) + x1 % 2 ≠ 2 * (y % 3) + x % 2) :
    (point (set st x y) x1 y1).1 = (point st x1 y1).1 ∧
    (point (reset st x y) x1 y1).1 = (point st x1 y1).1 := by
  have hposlt : (y / 3) * st.line_width + x / 2 < st.chars.length := by
    rw [hlen]; exact pixel_pos_lt st x y hx hy
  have hb5 := pixel_bit_le x y
  have hb5' := pixel_bit_le x1 y1
  have hne7 : 2 * (y % 3) + x % 2 ≠ 7 := by omega
  have hne7' : 2 * (y1 % 3) + x1 % 2 ≠ 7 := by omega
  constructor
  · rw [point_fst, point_fst, set_line_width, hpos,
      set_getD_pos st x y hposlt]
    simp only [Nat.testBit_or, Nat.testBit_two_pow_of_ne (Ne.symm hbit),
      Nat.testBit_two_pow_of_ne hne7, Bool.or_false]
    exact point_after_graphics_write _ hne7'
  · rw [point_fst, point_fst, reset_line_width, hpos,
      reset_getD_pos st x y hposlt]
    simp only [Nat.testBit_and, Nat.testBit_xor,
      Nat.testBit_two_pow_of_ne (Ne.symm hbit),
      Nat.testBit_two_pow_of_ne hne7,
      testBit_65535 (show (7 : Nat) < 16 by norm_num),
      testBit_65535 (show 2 * (y1 % 3) + x1 % 2 < 16 by omega),
      Bool.xor_false, Bool.and_true]
    exact point_after_graphics_write _ hne7'

theorem C5_witness :
    1 < 2 * (init 2 2).line_width ∧ 4 < 3 * (init 2 2).line_count ∧
    0 < 2 * (init 2 2).line_width ∧ 4 < 3 * (init 2 2).line_count ∧
    (init 2 2).chars.length = charsLen (init 2 2) ∧
    (4 / 3) * (init 2 2).line_width + 0 / 2 =
      (4 / 3) * (init 2 2).line_width + 1 / 2 ∧
    2 * (4 % 3) + 0 % 2 ≠ 2 * (4 % 3) + 1 % 2 ∧
    ((point (set (init 2 2) 1 4) 0 4).1 = (point (init 2 2) 0 4).1 ∧
     (point (reset (init 2 2) 1 4) 0 4).1 = (point (init 2 2) 0 4).1) :=
  ⟨by decide, by decide, by decide, by decide, by decide, by decide, by decide,
    C5_subpixel_frame (init 2 2) 1 4 0 4 (by decide) (by decide) (by decide)
      (by decide) (by decide) (by decide) (by decide)⟩

/-! The tab branch of the interpreter. -/

lemma printChar_tab (st : RTState) (c : Nat) (h1 : 191 ≤ c) (h2 : c < 256) :
    printChar st c =
      { st with cursor := (st.cursor / st.line_width) * st.line_width +
          (if st.cursor % st.line_width < c - 191 then c - 191
           else st.cursor % st.line_width) } := by
  unfold printChar
  rw [if_neg (by omega : ¬c = 8), if_neg (by omega : ¬(c = 10 ∨ c = 13)),
    if_neg (by omega : ¬c = 24), if_neg (by omega : ¬c = 25),
    if_neg (by omega : ¬c = 26), if_neg (by omega : ¬c = 27),
    if_neg (by omega : ¬c = 28), if_neg (by omega : ¬c = 29),
    if_neg (by omega : ¬c = 30), if_neg (by omega : ¬c = 31),
    if_pos (⟨h1, h2⟩ : 191 ≤ c ∧ c < 256)]

/-- C1: the code violates the cursor range invariant claimed by the spec:
in 64-char mode, a legal print_at(960, ...) placing the cursor at the start
of the last row followed by printing the tab code 255 (tab column
255-191 = 64) leaves the cursor at 1024 = chars_len, outside
[0, chars_len); a subsequent glyph write would index past the buffer. -/
theorem C1_cursor_escapes_range :
    ¬ ((print_at (init 64 16) 960 [255]).cursor < charsLen (init 64 16)) := by
  decide

/-- C2 counterexample: in 64-char mode, printing code 255 with the cursor
at position 0 (row 0, column 0) moves the cursor to 64, the start of row 1:
the cursor's row changes, refuting "in every case the cursor's row is
unchanged". -/
theorem C2_cex_tab_row_changes :
    (print (init 64 16) [255]).cursor = 64 ∧
    (print (init 64 16) [255]).cursor / (init 64 16).line_width ≠
      (init 64 16).cursor / (init 64 16).line_width := by
  constructor
  · decide
  · decide

/-- C2 (amended): for every code c in [191,255] whose tab column c-191 is
less than line_width, printing the single character c moves the cursor to
column c-191 of the current row if c-191 is greater than the current
column and otherwise leaves the cursor unchanged; the cursor's row is
unchanged, the cursor never moves left, and no buffer cell changes.  (For
c-191 >= line_width, i.e. code 255 in 64-char mode and codes 223-255 in
32-char mode, the cursor leaves the current row and can leave the valid
range.) -/
theorem C2_tab_behavior (st : RTState) (c : Nat)
    (h1 : 191 ≤ c) (h2 : c < 256) (h3 : c - 191 < st.line_width) :
    (print st [c]).chars = st.chars ∧
    (print st [c]).cursor / st.line_width = st.cursor / st.line_width ∧
    (print st [c]).cursor % st.line_width =
      (if st.cursor % st.line_width < c - 191 then c - 191
       else st.cursor % st.line_width) ∧
    st.cursor % st.line_width ≤ (print st [c]).cursor % st.line_width := by
  have hw : 0 < st.line_width := by omega
  have hp : print st [c] = printChar st c := rfl
  have hcol : (if st.cursor % st.line_width < c - 191 then c - 191
      else st.cursor % st.line_width) < st.line_width := by
    by_cases h : st.cursor % st.line_width < c - 191
    · rw [if_pos h]; exact h3
    · rw [if_neg h]; exact Nat.mod_lt _ hw
  rw [hp, printChar_tab st c h1 h2]
  refine ⟨rfl, ?_, ?_, ?_⟩
  · show (st.cursor / st.line_width * st.line_width +
        (if st.cursor % st.line_width < c - 191 then c - 191
         else st.cursor % st.line_width)) / st.line_width
      = st.cursor / st.line_width
    rw [Nat.mul_comm, Nat.mul_add_div hw, Nat.div_eq_of_lt hcol, Nat.add_zero]
  · show (st.cursor / st.line_width * st.line_width +
        (if st.cursor % st.line_width < c - 191 then c - 191
         else st.cursor % st.line_width)) % st.line_width
      = (if st.cursor % st.line_width < c - 191 then c - 191
         else st.cursor % st.line_width)
    rw [Nat.mul_comm, Nat.mul_add_mod, Nat.mod_eq_of_lt hcol]
  · show st.cursor % st.line_width ≤
      (st.cursor / st.line_width * st.line_width +
        (if st.cursor % st.line_width < c - 191 then c - 191
         else st.cursor % st.line_width)) % st.line_width
    rw [Nat.mul_comm, Nat.mul_add_mod, Nat.mod_eq_of_lt hcol]
    by_cases h : st.cursor % st.line_width < c - 191
    · rw [if_pos h]; omega
    · rw [if_neg h]

theorem C2_witness :
    191 ≤ 196 ∧ 196 < 256 ∧
    196 - 191 < ({ init 8 2 with cursor := 2 } : RTState).line_width ∧
    ((print { init 8 2 with cursor := 2 } [196]).chars =
        ({ init 8 2 with cursor := 2 } : RTState).chars ∧
     (print { init 8 2 with cursor := 2 } [196]).cursor /
          ({ init 8 2 with cursor := 2 } : RTState).line_width =
        ({ init 8 2 with cursor := 2 } : RTState).cursor /
          ({ init 8 2 with cursor := 2 } : RTState).line_width ∧
     (print { init 8 2 with cursor := 2 } [196]).cursor %
          ({ init 8 2 with cursor := 2 } : RTState).line_width =
       (if ({ init 8 2 with cursor := 2 } : RTState).cursor %
             ({ init 8 2 with cursor := 2 } : RTState).line_width < 196 - 191
        then 196 - 191
        else ({ init 8 2 with cursor := 2 } : RTState).cursor %
             ({ init 8 2 with cursor := 2 } : RTState).line_width) ∧
     ({ init 8 2 with cursor := 2 } : RTState).cursor %
          ({ init 8 2 with cursor := 2 } : RTState).line_width ≤
       (print { init 8 2 with cursor := 2 } [196]).cursor %
          ({ init 8 2 with cursor := 2 } : RTState).line_width) :=
  ⟨by decide, by decide, by decide,
    C2_tab_behavior { init 8 2 with cursor := 2 } 196 (by decide) (by decide)
      (by decide)⟩

/-! Scrolling and the glyph branch of the interpreter. -/

@[simp] lemma scroll_line_width (st : RTState) :
    (scroll st).line_width = st.line_width := rfl

@[simp] lemma scroll_line_count (st : RTState) :
    (scroll st).line_count = st.line_count := rfl

@[simp] lemma scroll_cursor (st : RTState) :
    (scroll st).cursor = st.cursor := rfl

@[simp] lemma scroll_scrolls (st : RTState) :
    (scroll st).scrolls = st.scrolls + 1 := rfl

@[simp] lemma charsLen_mk_cursor (st : RTState) (v : Nat) :
    charsLen { st with cursor := v } = charsLen st := rfl

@[simp] lemma charsLen_scroll (st : RTState) :
    charsLen (scroll st) = charsLen st := rfl

lemma scroll_chars_getD (st : RTState) (i : Nat) (hi : i < charsLen st) :
    (scroll st).chars.getD i 0 =
      if i < charsLen st - st.line_width then st.chars.getD (i + st.line_width) 0
      else 32 := by
  unfold scroll
  dsimp only
  rw [List.getD_eq_getElem?_getD, List.getElem?_map, List.getElem?_range hi]
  rfl

lemma isControl_false_elim {c : Nat} (h : isControl c = false) :
    ¬c = 8 ∧ ¬(c = 10 ∨ c = 13) ∧ ¬c = 24 ∧ ¬c = 25 ∧ ¬c = 26 ∧ ¬c = 27 ∧
    ¬c = 28 ∧ ¬c = 29 ∧ ¬c = 30 ∧ ¬c = 31 ∧ ¬(191 ≤ c ∧ c < 256) := by
  simp only [isControl, Bool.or_eq_false_iff, beq_eq_false_iff_ne, ne_eq,
    Bool.and_eq_false_iff, decide_eq_false_iff_not, not_le, not_lt] at h
  omega

/-- A non-control code takes the final (glyph) branch of the interpreter:
write the glyph at the cursor, advance by one, and scroll back to the start
of the last row when the cursor reaches chars_len. -/
lemma printChar_glyph_step (st : RTState) (c : Nat) (h : isControl c = false) :
    printChar st c =
      (if charsLen st ≤ st.cursor + 1 then
        { scroll { update_char st st.cursor c with cursor := st.cursor + 1 } with
            cursor := (st.line_count - 1) * st.line_width }
      else { update_char st st.cursor c with cursor := st.cursor + 1 }) := by
  obtain ⟨h8, h10, h24, h25, h26, h27, h28, h29, h30, h31, h191⟩ :=
    isControl_false_elim h
  unfold printChar
  rw [if_neg h8, if_neg h10, if_neg h24, if_neg h25, if_neg h26, if_neg h27,
    if_neg h28, if_neg h29, if_neg h30, if_neg h31, if_neg h191]
  dsimp only
  rw [update_char_cursor, charsLen_mk_cursor, charsLen_update_char,
    update_char_line_count, update_char_line_width]

lemma printChar_glyph_no_wrap (st : RTState) (c : Nat)
    (h : isControl c = false) (hlt : st.cursor + 1 < charsLen st) :
    printChar st c = { update_char st st.cursor c with cursor := st.cursor + 1 } := by
  rw [printChar_glyph_step st c h, if_neg (by omega)]

lemma printChar_glyph_wrap (st : RTState) (c : Nat)
    (h : isControl c = false) (hge : charsLen st ≤ st.cursor + 1) :
    printChar st c =
      { scroll { update_char st st.cursor c with cursor := st.cursor + 1 } with
          cursor := (st.line_count - 1) * st.line_width } := by
  rw [printChar_glyph_step st c h, if_pos hge]

/-- Printing non-control codes that fit strictly before the end of the
buffer advances the cursor one cell per code without any scroll. -/
lemma print_glyphs_inner (L : List Nat) : ∀ (st : RTState),
    (∀ c ∈ L, isControl c = false) →
    st.cursor + L.length < charsLen st →
    (print st L).cursor = st.cursor + L.length ∧
    (print st L).scrolls = st.scrolls ∧
    (print st L).line_width = st.line_width ∧
    (print st L).line_count = st.line_count := by
  induction L with
  | nil =>
    intro st _ _
    exact ⟨rfl, rfl, rfl, rfl⟩
  | cons c L ih =>
    intro st hL hlt
    have hc : isControl c = false := hL c (List.mem_cons_self c L)
    have hL' : ∀ d ∈ L, isControl d = false :=
      fun d hd => hL d (List.mem_cons_of_mem c hd)
    have hlens : (c :: L).length = L.length + 1 := rfl
    have hlt1 : st.cursor + 1 < charsLen st := by omega
    have hstep : print st (c :: L) = print (printChar st c) L := rfl
    rw [hstep, printChar_glyph_no_wrap st c hc hlt1]
    have h2 : ({ update_char st st.cursor c with cursor := st.cursor + 1 } :
        RTState).cursor + L.length <
        charsLen { update_char st st.cursor c with cursor := st.cursor + 1 } := by
      rw [charsLen_mk_cursor, charsLen_update_char]
      show st.cursor + 1 + L.length < charsLen st
      omega
    obtain ⟨ha, hb, hw, hh⟩ := ih _ hL' h2
    refine ⟨?_, ?_, ?_, ?_⟩
    · rw [ha]
      show st.cursor + 1 + L.length = st.cursor + (c :: L).length
      omega
    · rw [hb]
      show (update_char st st.cursor c).scrolls = st.scrolls
      rw [update_char_scrolls]
    · rw [hw]
      show (update_char st st.cursor c).line_width = st.line_width
      rw [update_char_line_width]
    · rw [hh]
      show (update_char st st.cursor c).line_count = st.line_count
      rw [update_char_line_count]

/-- C6: a scroll sets buffer[i] := buffer[i+line_width] for every i in
[0, chars_len - line_width) and blanks every cell of the final row; and
printing exactly line_width non-control characters starting at column 0 of
row r advances the cursor to the start of the next row without scrolling
when r is not the last row, and otherwise performs exactly one scroll,
leaves the cursor at the start of the last row, and leaves the newly
exposed last row entirely blank. -/
theorem C6_scroll_and_full_line (st : RTState) (r : Nat) (L : List Nat)
    (hw : 0 < st.line_width) (hr : r < st.line_count)
    (hcur : st.cursor = r * st.line_width)
    (hL : ∀ c ∈ L, isControl c = false)
    (hlenL : L.length = st.line_width) :
    (∀ i, i < charsLen st - st.line_width →
      (scroll st).chars.getD i 0 = st.chars.getD (i + st.line_width) 0) ∧
    (∀ i, i < charsLen st → charsLen st - st.line_width ≤ i →
      (scroll st).chars.getD i 0 = 32) ∧
    (r < st.line_count - 1 →
      (print st L).cursor = (r + 1) * st.line_width ∧
      (print st L).scrolls = st.scrolls) ∧
    (r = st.line_count - 1 →
      (print st L).cursor = (st.line_count - 1) * st.line_width ∧
      (print st L).scrolls = st.scrolls + 1 ∧
      (∀ i, i < charsLen st → charsLen st - st.line_width ≤ i →
        (print st L).chars.getD i 0 = 32)) := by
  refine ⟨?_, ?_, ?_, ?_⟩
  · intro i hi
    rw [scroll_chars_getD st i (by omega), if_pos hi]
  · intro i hi1 hi2
    rw [scroll_chars_getD st i hi1, if_neg (by omega)]
  · intro hrlast
    have hlt : st.cursor + L.length < charsLen st := by
      rw [hcur, hlenL]
      unfold charsLen
      have h1 : r + 1 < st.line_count := by omega
      calc r * st.line_width + st.line_width
          = (r + 1) * st.line_width := by ring
        _ < st.line_count * st.line_width :=
            Nat.mul_lt_mul_of_lt_of_le h1 (le_refl _) hw
        _ = st.line_width * st.line_count := Nat.mul_comm _ _
    obtain ⟨ha, hb, _, _⟩ := print_glyphs_inner L st hL hlt
    constructor
    · rw [ha, hcur, hlenL]; ring
    · exact hb
  · intro hrlast
    obtain hnil | ⟨M, a, hMa⟩ := List.eq_nil_or_concat L
    · exfalso
      rw [hnil] at hlenL
      simp at hlenL
      omega
    rw [List.concat_eq_append] at hMa
    have hM : ∀ d ∈ M, isControl d = false := by
      intro d hd
      exact hL d (by rw [hMa]; exact List.mem_append_left _ hd)
    have ha' : isControl a = false := by
      apply hL a
      rw [hMa]
      exact List.mem_append_right _ (List.mem_cons_self a [])
    have hMlen : M.length + 1 = st.line_width := by
      rw [hMa] at hlenL
      simpa using hlenL
    have hmul : (st.line_count - 1) * st.line_width + st.line_width =
        charsLen st := by
      unfold charsLen
      have h1 : st.line_count - 1 + 1 = st.line_count := by omega
      calc (st.line_count - 1) * st.line_width + st.line_width
          = (st.line_count - 1 + 1) * st.line_width := by ring
        _ = st.line_count * st.line_width := by rw [h1]
        _ = st.line_width * st.line_count := Nat.mul_comm _ _
    have hMlt : st.cursor + M.length < charsLen st := by
      rw [hcur, hrlast]
      omega
    obtain ⟨hc1, hc2, hc3, hc4⟩ := print_glyphs_inner M st hM hMlt
    have hcl1 : charsLen (print st M) = charsLen st := by
      unfold charsLen
      rw [hc3, hc4]
    have hwrap : charsLen (print st M) ≤ (print st M).cursor + 1 := by
      rw [hcl1, hc1, hcur, hrlast]
      omega
    have hstep : print st L = printChar (print st M) a := by
      rw [hMa]
      unfold print
      rw [List.foldl_append]
      rfl
    rw [hstep, printChar_glyph_wrap (print st M) a ha' hwrap]
    refine ⟨?_, ?_, ?_⟩
    · show ((print st M).line_count - 1) * (print st M).line_width =
        (st.line_count - 1) * st.line_width
      rw [hc3, hc4]
    · show (scroll { update_char (print st M) (print st M).cursor a with
          cursor := (print st M).cursor + 1 }).scrolls = st.scrolls + 1
      rw [scroll_scrolls]
      show (update_char (print st M) (print st M).cursor a).scrolls + 1 =
        st.scrolls + 1
      rw [update_char_scrolls, hc2]
    · intro i hi1 hi2
      show (scroll { update_char (print st M) (print st M).cursor a with
          cursor := (print st M).cursor + 1 }).chars.getD i 0 = 32
      have hcl2 : charsLen { update_char (print st M) (print st M).cursor a with
          cursor := (print st M).cursor + 1 } = charsLen st := by
        rw [charsLen_mk_cursor, charsLen_update_char, hcl1]
      have hlw2 : ({ update_char (print st M) (print st M).cursor a with
          cursor := (print st M).cursor + 1 } : RTState).line_width =
          st.line_width := by
        show (update_char (print st M) (print st M).cursor a).line_width =
          st.line_width
        rw [update_char_line_width, hc3]
      rw [scroll_chars_getD _ i (by rw [hcl2]; exact hi1)]
      rw [hcl2, hlw2, if_neg (by omega)]

theorem C6_witness :
    0 < (init 2 2).line_width ∧ 0 < (init 2 2).line_count ∧
    (init 2 2).cursor = 0 * (init 2 2).line_width ∧
    (∀ c ∈ [65, 66], isControl c = false) ∧
    ([65, 66] : List Nat).length = (init 2 2).line_width ∧
    ((∀ i, i < charsLen (init 2 2) - (init 2 2).line_width →
      (scroll (init 2 2)).chars.getD i 0 = (init 2 2).chars.getD (i + (init 2 2).line_width) 0) ∧
    (∀ i, i < charsLen (init 2 2) → charsLen (init 2 2) - (init 2 2).line_width ≤ i →
      (scroll (init 2 2)).chars.getD i 0 = 32) ∧
    (0 < (init 2 2).line_count - 1 →
      (print (init 2 2) [65, 66]).cursor = (0 + 1) * (init 2 2).line_width ∧
      (print (init 2 2) [65, 66]).scrolls = (init 2 2).scrolls) ∧
    (0 = (init 2 2).line_count - 1 →
      (print (init 2 2) [65, 66]).cursor = ((init 2 2).line_count - 1) * (init 2 2).line_width ∧
      (print (init 2 2) [65, 66]).scrolls = (init 2 2).scrolls + 1 ∧
      (∀ i, i < charsLen (init 2 2) → charsLen (init 2 2) - (init 2 2).line_width ≤ i →
        (print (init 2 2) [65, 66]).chars.getD i 0 = 32))) :=
  ⟨by decide, by decide, by decide, by decide, by decide,
    C6_scroll_and_full_line (init 2 2) 0 [65, 66] (by decide) (by decide)
      (by decide) (by decide) (by decide)⟩

end TinyModel3
